import Mathlib

/-
Verification of the port-detection pipeline (AIS vessel pings -> stop events ->
DBSCAN clusters -> cluster summaries and convex-hull polygons).

The definitions below are a shallow embedding of the Python sources:
  - parallel_data_processing.py   (preprocess_chunk)
  - clustering_and_port_detection.py
      (process_single_mmsi_stops, get_significant_stops_parallel,
       cluster_stops_dbscan, get_ship_type_distribution, create_cluster_summary_df)
  - parallel_polygon_processing.py
      (_calculate_single_cluster_polygon, generate_port_polygons_parallel)
  - main.py                       (the orchestration / left merge)

Timestamps and durations are modelled as integers (seconds); coordinates,
speeds and duration-hours as rationals.  pandas DataFrames become typed lists
of records.  External library calls (sklearn DBSCAN, shapely convex_hull) are
modelled explicitly where a claim depends on them; their definitions carry a
doc comment naming what they stand for.
-/

/-- Ping record: one row of the preprocessed AIS table
(columns MMSI, Timestamp, Latitude, Longitude, SOG, Ship type, Navigational status).
The two categorical columns are nullable in the raw data, hence Option. -/
structure Ping where
  mmsi : Nat
  ts : Int
  lat : ℚ
  lon : ℚ
  sog : ℚ
  shipType : Option String
  navStatus : Option String
  deriving DecidableEq, Repr

/-- Stop-event row as produced by process_single_mmsi_stops: columns MMSI,
stop_latitude, stop_longitude, stop_start_time, stop_end_time,
stop_duration_hours, num_pings_in_stop, Ship type, Navigational status. -/
structure Stop where
  mmsi : Nat
  lat : ℚ
  lon : ℚ
  startT : Int
  endT : Int
  durH : ℚ
  nPings : Nat
  shipType : String
  navStatus : String
  deriving DecidableEq, Repr

/-- Stop row together with the cluster label attached by cluster_stops_dbscan. -/
abbrev LabeledStop := Stop × Int

section Segmentation

variable {π : Type}

/-- Mirror of lines 27-31 of clustering_and_port_detection.py: the per-row
segment ids obtained as the cumulative sum of the boolean series
time_diff.isna() OR (time_diff > max_time_diff_within_stop_threshold),
where time_diff is the difference of each timestamp to its predecessor
(missing exactly at the first row).  t projects the timestamp out of a row. -/
def segmentIdsAux (t : π → Int) (g : Int) : Int → Nat → List π → List Nat
  | _, _, [] => []
  | prev, cur, x :: xs =>
    let cur' := if t x - prev > g then cur + 1 else cur
    cur' :: segmentIdsAux t g (t x) cur' xs

/-- Segment id column for a whole (already sorted) row list; the first row's
time_diff is missing (isna), so it always opens segment 1. -/
def segmentIds (t : π → Int) (g : Int) : List π → List Nat
  | [] => []
  | x :: xs => 1 :: segmentIdsAux t g (t x) 1 xs

/-- Mirror of groupby("stop_segment_id") applied to the cumsum ids: the rows
chopped into maximal runs, a new run opening exactly where the time delta to
the predecessor strictly exceeds the gap threshold g.  Because the cumsum ids
are non-decreasing along the list and groupby sorts its keys ascending, the
groups of the source are exactly these runs, in this order (the bridge theorem
segmentIds_eq_idsOfSegments makes this correspondence precise). -/
def segmentsBy (t : π → Int) (g : Int) : List π → List (List π)
  | [] => []
  | [x] => [[x]]
  | x :: y :: xs =>
    match segmentsBy t g (y :: xs) with
    | [] => [[x]]
    | s :: ss => if t y - t x > g then [x] :: s :: ss else (x :: s) :: ss

/-- Id column reconstructed from the chopped segments: segment number i+1
repeated once per member row. -/
def idsOfSegments (segs : List (List π)) : List Nat :=
  (segs.enum.map (fun p => List.replicate p.2.length (p.1 + 1))).flatten

end Segmentation

/-- Distinct values of a list in order of first appearance relative to the
accumulator of already-seen values; this is the enumeration order pandas
unique/value_counts/drop_duplicates use. -/
def dedupKeysAux {α : Type} [DecidableEq α] (seen : List α) : List α → List α
  | [] => []
  | x :: xs => if x ∈ seen then dedupKeysAux seen xs else x :: dedupKeysAux (x :: seen) xs

/-- Distinct values of a list in order of first appearance. -/
def dedupKeys {α : Type} [DecidableEq α] (l : List α) : List α := dedupKeysAux [] l

/-- Minimum of the Timestamp column of a segment (segment_data["Timestamp"].min()). -/
def tsMin (seg : List Ping) : Int :=
  match seg with
  | [] => 0
  | x :: xs => (xs.map Ping.ts).foldl min x.ts

/-- Maximum of the Timestamp column of a segment (segment_data["Timestamp"].max()). -/
def tsMax (seg : List Ping) : Int :=
  match seg with
  | [] => 0
  | x :: xs => (xs.map Ping.ts).foldl max x.ts

/-- Mirror of line 41: duration = timedelta(0) if the segment has one row,
otherwise max(Timestamp) - min(Timestamp). -/
def segDuration (seg : List Ping) : Int :=
  if seg.length = 1 then 0 else tsMax seg - tsMin seg

/-- Arithmetic mean of a rational column. -/
def ratMean (xs : List ℚ) : ℚ := xs.sum / xs.length

/-- Mirror of the categorical resolution at lines 47-68: the first non-missing
value of the column over the segment (dropna().astype(str).unique() keeps the
order of first appearance, so index 0 is the first non-null value), with
default "N/A" when every value is missing. -/
def firstValidOrNA (vals : List (Option String)) : String :=
  ((vals.filterMap id).head?).getD "N/A"

/-- Mirror of the loop body at lines 39-82 of process_single_mmsi_stops: turn
one non-empty segment into a stop row when its duration reaches
min_stop_duration_threshold (boundary inclusive), else nothing.  The empty
segment is skipped as by the `continue` at line 37. -/
def processSegment (mmsi : Nat) (minDur : Int) (seg : List Ping) : Option Stop :=
  match seg with
  | [] => none
  | _ :: _ =>
    let dur := segDuration seg
    if minDur ≤ dur then
      some { mmsi := mmsi
             lat := ratMean (seg.map Ping.lat)
             lon := ratMean (seg.map Ping.lon)
             startT := tsMin seg
             endT := tsMax seg
             durH := (dur : ℚ) / 3600
             nPings := seg.length
             shipType := firstValidOrNA (seg.map Ping.shipType)
             navStatus := firstValidOrNA (seg.map Ping.navStatus) }
    else none

/-- Model of process_single_mmsi_stops: sort one vessel's pings by Timestamp
(insertionSort is a stable rendering of sort_values), chop them into segments at
gaps strictly exceeding max_time_diff_within_stop_threshold, and keep the
segments whose duration reaches min_stop_duration_threshold.  An empty group
returns an empty table (line 21-22). -/
def process_single_mmsi_stops (mmsi : Nat) (pings : List Ping)
    (minDur maxGap : Int) : List Stop :=
  match pings with
  | [] => []
  | _ :: _ =>
    let sorted := pings.insertionSort (fun a b => a.ts ≤ b.ts)
    (segmentsBy Ping.ts maxGap sorted).filterMap (processSegment mmsi minDur)

/-- Input table for get_significant_stops_parallel: the preprocessed ping frame
together with its column-name list (the code's schema check inspects
df.columns, so the model carries the column names explicitly). -/
structure PingTable where
  columns : List String
  rows : List Ping
  deriving Repr

/-- Required columns checked at lines 98-105 of clustering_and_port_detection.py. -/
def required_columns : List String :=
  ["MMSI", "Timestamp", "Latitude", "Longitude", "Ship type", "Navigational status"]

/-- Mirror of df.groupby("MMSI"): one group per distinct MMSI, keys ascending
(pandas groupby sorts its keys), each group keeping the original row order. -/
def mmsiGroups (rows : List Ping) : List (Nat × List Ping) :=
  (List.insertionSort (· ≤ ·) (dedupKeys (rows.map Ping.mmsi))).map
    (fun m => (m, rows.filter (fun p => p.mmsi == m)))

/-- Mirror of the collection loop at lines 137-153: per-task result frames are
appended when non-empty and concatenated.  The list order of results stands
for the arrival order of pool.imap_unordered. -/
def collectStops (results : List (List Stop)) : List Stop :=
  (results.filter (fun r => !r.isEmpty)).flatten

/-- Result of the stop-detection stage: the list of missing required columns
printed by the schema-error branch (empty when the check passed) and the
concatenated stop table (empty on schema error). -/
structure StageResult where
  missing : List String
  stops : List Stop
  deriving Repr

/-- Model of get_significant_stops_parallel.  The per-vessel worker function is
a parameter so that theorems can state that the schema-error branch returns
before any fan-out happens (the result does not depend on the worker). -/
def get_significant_stops_parallel
    (worker : Nat → List Ping → Int → Int → List Stop)
    (df : PingTable) (minDur maxGap : Int) : StageResult :=
  if required_columns.all (fun c => df.columns.contains c) then
    let tasks := (mmsiGroups df.rows).filter (fun t => !t.2.isEmpty)
    { missing := []
      stops := collectStops (tasks.map (fun t => worker t.1 t.2 minDur maxGap)) }
  else
    { missing := required_columns.filter (fun c => !(df.columns.contains c))
      stops := [] }

/-- Model of cluster_stops_dbscan (lines 162-196).  The call
DBSCAN(eps, min_samples, metric="haversine", algorithm="ball_tree").fit_predict
on the radian coordinate matrix is abstracted into the two parameters:
coordOf models the row-wise np.radians coordinate extraction (line 183) and
fitPredict the fitted prediction, returning labels or raising (Except.error).
An empty frame gets a cluster column but has no rows; a non-empty frame with
fewer rows than min_samples is labeled all -1 without invoking the algorithm;
a raising fit labels the whole batch -2. -/
def cluster_stops_dbscan {γ : Type}
    (fitPredict : List γ → Except String (List Int)) (coordOf : Stop → γ)
    (minSamples : Nat) (stops : List Stop) : List LabeledStop :=
  if stops.isEmpty then []
  else if stops.length < minSamples then stops.map (fun s => (s, -1))
  else
    match fitPredict (stops.map coordOf) with
    | .ok labels => stops.zip labels
    | .error _ => stops.map (fun s => (s, -2))

/-- Mirror of pandas Series.value_counts(): distinct values with their counts,
sorted by descending count; the sort is stable, so ties keep first-appearance
order. -/
def value_counts (xs : List String) : List (String × Nat) :=
  List.insertionSort (fun a b => b.2 ≤ a.2)
    ((dedupKeys xs).map (fun v => (v, xs.count v)))

/-- Mirror of get_ship_type_distribution (lines 199-204). -/
def get_ship_type_distribution (xs : List String) : String :=
  String.intercalate ", " ((value_counts xs).map (fun p => p.1 ++ ": " ++ toString p.2))

/-- Mirror of the lambda aggregations at lines 226-227:
x.mode()[0] if non-empty else "N/A".  pandas Series.mode() returns the values
of maximal multiplicity sorted ascending, so index 0 is the smallest such
value; it is empty exactly when the series is empty (the column holds plain
strings, never NaN, by construction of the stop table). -/
def modeOrNA (xs : List String) : String :=
  let maxCount := (xs.map (fun v => xs.count v)).foldr max 0
  ((xs.filter (fun v => xs.count v == maxCount)).min?).getD "N/A"

/-- Row of the cluster summary table (columns as renamed at lines 230-239,
plus ship_type_distribution). -/
structure SummaryRow where
  cluster_id : Int
  centroid_latitude : ℚ
  centroid_longitude : ℚ
  num_unique_ships : Nat
  avg_stop_duration_hours : ℚ
  total_stop_duration_hours : ℚ
  num_stops : Nat
  most_common_ship_type : String
  most_common_navigational_status : String
  ship_type_distribution : String
  deriving DecidableEq, Repr

/-- Aggregation dictionary of create_cluster_summary_df applied to one cluster
group: means of the coordinate columns, nunique over MMSI, mean/sum/count over
stop_duration_hours, modes of the categorical columns, and the ship-type
distribution string. -/
def summarize (c : Int) (grp : List Stop) : SummaryRow :=
  { cluster_id := c
    centroid_latitude := ratMean (grp.map Stop.lat)
    centroid_longitude := ratMean (grp.map Stop.lon)
    num_unique_ships := (dedupKeys (grp.map Stop.mmsi)).length
    avg_stop_duration_hours := ratMean (grp.map Stop.durH)
    total_stop_duration_hours := (grp.map Stop.durH).sum
    num_stops := grp.length
    most_common_ship_type := modeOrNA (grp.map Stop.shipType)
    most_common_navigational_status := modeOrNA (grp.map Stop.navStatus)
    ship_type_distribution := get_ship_type_distribution (grp.map Stop.shipType) }

/-- Sorted distinct cluster labels of a labeled slice: groupby("cluster")
enumerates its groups with keys ascending. -/
def clusterKeys (actual : List LabeledStop) : List Int :=
  List.insertionSort (· ≤ ·) (dedupKeys (actual.map Prod.snd))

/-- Model of create_cluster_summary_df (lines 207-251): drop the rows labeled
-1, return an empty frame when nothing is left, otherwise aggregate each
remaining cluster group (the 'cluster' column always exists in this typed
model, so the error branch at lines 212-214 never fires). -/
def create_cluster_summary_df (labeled : List LabeledStop) : List SummaryRow :=
  let actual := labeled.filter (fun r => r.2 != -1)
  if actual.isEmpty then []
  else (clusterKeys actual).map
    (fun c => summarize c ((actual.filter (fun r => r.2 == c)).map Prod.fst))

/-- Row of the polygon table: cluster_id and port_polygon_wkt (None when no
valid point or on a computation error). -/
structure PolyRow where
  cluster_id : Int
  port_polygon_wkt : Option String
  deriving DecidableEq, Repr

/-- Planar point (x = longitude, y = latitude), the order in which
_calculate_single_cluster_polygon builds its point tuples. -/
abbrev Pt := ℚ × ℚ

/-- Cross product of the vectors o->a and o->b; zero exactly when o, a, b are
collinear. -/
def cross (o a b : Pt) : ℚ :=
  (a.1 - o.1) * (b.2 - o.2) - (a.2 - o.2) * (b.1 - o.1)

/-- Lexicographic sort of a point list (by x, then y), used to run the
monotone-chain hull construction. -/
def lexSort (pts : List Pt) : List Pt :=
  List.insertionSort (fun a b => a.1 < b.1 ∨ (a.1 = b.1 ∧ a.2 ≤ b.2)) pts

/-- One step of the monotone-chain hull: pop while the turn is not strictly
counter-clockwise, then push. -/
def chainStep : List Pt → Pt → List Pt
  | b :: a :: rest, p =>
    if cross a b p ≤ 0 then chainStep (a :: rest) p else p :: b :: a :: rest
  | acc, p => p :: acc

/-- Half (lower or upper) hull of a lexicographically ordered point list. -/
def halfHull (pts : List Pt) : List Pt := (pts.foldl chainStep []).reverse

/-- Open ring of the convex hull of a sorted, distinct, not-all-collinear
point list (monotone chain: lower hull then upper hull, dropping the
duplicated endpoints). -/
def convexHullRing (d : List Pt) : List Pt :=
  (halfHull d).dropLast ++ (halfHull d.reverse).dropLast

/-- Geometry value: the three shapes a convex hull of a finite non-empty point
set can take. -/
inductive Geom where
  | point (p : Pt)
  | linestring (a b : Pt)
  | polygon (ring : List Pt)
  deriving DecidableEq, Repr

/-- Modelled from the spec: MultiPoint(...).convex_hull of shapely, which is
not part of this repository.  Per section 4.4 of the spec (and the code's own
comment at lines 27-28 of parallel_polygon_processing.py): a single distinct
point degenerates to a point geometry; two distinct points, or any larger
collinear set, degenerate to a line geometry between the two extreme points;
three or more non-collinear points yield a true polygon (the convex hull ring). -/
def convex_hull (pts : List Pt) : Geom :=
  match lexSort (dedupKeys pts) with
  | [] => Geom.point (0, 0)
  | [p] => Geom.point p
  | p0 :: p1 :: rest =>
    if rest.all (fun q => cross p0 p1 q == 0) then
      Geom.linestring p0 ((p1 :: rest).getLastD p1)
    else
      Geom.polygon (convexHullRing (p0 :: p1 :: rest))

/-- Coordinate pair rendered as WKT text. -/
def coordStr (p : Pt) : String := toString p.1 ++ " " ++ toString p.2

/-- Well-known-text serialization of a geometry (shapely's .wkt): POINT,
LINESTRING, or POLYGON with a closed ring. -/
def wktOf : Geom → String
  | Geom.point p => "POINT (" ++ coordStr p ++ ")"
  | Geom.linestring a b =>
      "LINESTRING (" ++ coordStr a ++ ", " ++ coordStr b ++ ")"
  | Geom.polygon ring =>
      "POLYGON ((" ++
        String.intercalate ", " ((ring ++ ring.take 1).map coordStr) ++ "))"

/-- Model of _calculate_single_cluster_polygon (lines 6-41 of
parallel_polygon_processing.py), split into validPoints (the filter at lines
14-18 keeping the (longitude, latitude) pairs whose two coordinates are both
non-missing) and the worker body: with no valid point it returns the row with
an absent geometry, otherwise it serializes the convex hull to WKT.  The
function is total: the try/except at lines 24-39 guarantees the worker returns a row
rather than raising, and the is_empty branch at lines 29-32 cannot fire for a
non-empty point list. -/
def validPoints (coords : List (Option ℚ × Option ℚ)) : List Pt :=
  coords.filterMap (fun c =>
    match c with
    | (some lon, some lat) => some ((lon, lat) : Pt)
    | _ => none)

/-- Worker body of lines 6-41 (see validPoints for the coordinate filter). -/
def _calculate_single_cluster_polygon (cid : Int)
    (coords : List (Option ℚ × Option ℚ)) : PolyRow :=
  let points_for_hull := validPoints coords
  match points_for_hull with
  | [] => { cluster_id := cid, port_polygon_wkt := none }
  | _ :: _ =>
    { cluster_id := cid
      port_polygon_wkt := some (wktOf (convex_hull points_for_hull)) }

/-- Model of generate_port_polygons_parallel (lines 44-117): drop the rows
labeled -1, return an empty frame when nothing remains, otherwise run the
polygon worker once per cluster group (groupby("cluster"), keys ascending;
every worker returns a dict, so every group contributes one row).  The
required-columns check at lines 61-71 always passes in this typed model. -/
def generate_port_polygons_parallel (labeled : List LabeledStop) : List PolyRow :=
  let actual := labeled.filter (fun r => r.2 != -1)
  if actual.isEmpty then []
  else (clusterKeys actual).map (fun c =>
    let grp := (actual.filter (fun r => r.2 == c)).map Prod.fst
    _calculate_single_cluster_polygon c (grp.map (fun s => (some s.lon, some s.lat))))

/-- Row of the final merged table: a summary row plus the polygon column
brought in by the left merge (absent when the cluster has no polygon row or
its polygon is absent). -/
structure MergedRow where
  srow : SummaryRow
  port_polygon_wkt : Option String
  deriving DecidableEq, Repr

/-- Mirror of summary_df.merge(polygons_df, on="cluster_id", how="left") at
lines 68-70 of main.py: every summary row is kept; the polygon column is
filled from the polygon row with the same cluster_id when one exists (cluster
ids are unique in the polygon table, one row per group). -/
def mergeLeftOnClusterId (summary : List SummaryRow) (polys : List PolyRow) :
    List MergedRow :=
  summary.map (fun s =>
    { srow := s
      port_polygon_wkt :=
        (polys.find? (fun p => p.cluster_id == s.cluster_id)).bind
          PolyRow.port_polygon_wkt })

/-- Outputs written by main.py when it reaches the innermost branch: the
clustered stop table and the merged summary-with-polygons table. -/
structure PipelineOutputs where
  clustered : List LabeledStop
  merged : List MergedRow
  deriving Repr

/-- Model of the orchestration in main.py (lines 37-93) downstream of
preprocessing: stop detection, then - guarded by the emptiness checks of main
- clustering, summary, polygons, and the left merge.  none models the runs in
which main prints a message and writes no merged output (empty stop table,
empty summary, or empty polygon table). -/
def mainPipeline {γ : Type}
    (worker : Nat → List Ping → Int → Int → List Stop)
    (fitPredict : List γ → Except String (List Int)) (coordOf : Stop → γ)
    (df : PingTable) (minDur maxGap : Int) (minSamples : Nat) :
    Option PipelineOutputs :=
  let stops := (get_significant_stops_parallel worker df minDur maxGap).stops
  if stops.isEmpty then none
  else
    let clustered := cluster_stops_dbscan fitPredict coordOf minSamples stops
    let summary := create_cluster_summary_df clustered
    if summary.isEmpty then none
    else
      let polys := generate_port_polygons_parallel clustered
      if polys.isEmpty then none
      else some { clustered := clustered
                  merged := mergeLeftOnClusterId summary polys }

/-- Raw CSV row as read by load_and_preprocess_data_parallel (usecols):
columns # Timestamp, MMSI, Latitude, Longitude, Navigational status, SOG,
Ship type; every field can be missing in the raw data. -/
structure RawPing where
  timestampStr : Option String
  mmsi : Option Nat
  lat : Option ℚ
  lon : Option ℚ
  navStatus : Option String
  sog : Option ℚ
  shipType : Option String
  deriving DecidableEq, Repr

/-- Predicate of pandas dropna(): every column of the row is present. -/
def rawComplete (r : RawPing) : Bool :=
  r.timestampStr.isSome && r.mmsi.isSome && r.lat.isSome && r.lon.isSome &&
    r.navStatus.isSome && r.sog.isSome && r.shipType.isSome

/-- Mirror of drop_duplicates(): keep the first occurrence of each row. -/
def dedupRaw (raw : List RawPing) : List RawPing := dedupKeys raw

/-- Conversion of a complete raw row into a typed ping: the # Timestamp string
is parsed into the Timestamp column (parse models pd.to_datetime with
dayfirst=True; its errors="coerce" NaT fallback for unparseable strings is
outside the scope of the claims, so parse is total here), the other columns
are carried over. -/
def parseRow (parse : String → Int) (r : RawPing) : Ping :=
  { mmsi := r.mmsi.getD 0
    ts := parse (r.timestampStr.getD "")
    lat := r.lat.getD 0
    lon := r.lon.getD 0
    sog := r.sog.getD 0
    shipType := r.shipType
    navStatus := r.navStatus }

/-- Model of preprocess_chunk (lines 5-12 of parallel_data_processing.py):
dropna() drops every row with any missing field, drop_duplicates() drops
exact duplicates, the timestamp string is parsed, and rows with SOG above 2
knots are dropped.  It runs before any segmentation sees the data. -/
def preprocess_chunk (parse : String → Int) (raw : List RawPing) : List Ping :=
  ((dedupRaw (raw.filter rawComplete)).map (parseRow parse)).filter
    (fun p => decide (p.sog ≤ 2))

/-- Indices of the points of pts lying within the eps-neighborhood of p, the
neighborhood query of the fitted ball tree (near p q is true exactly when the
metric distance from p to q is at most eps). -/
def neighborIdxs {γ : Type} (near : γ → γ → Bool) (pts : List γ) (p : γ) :
    List Nat :=
  (pts.enum.filter (fun iq => near p iq.2)).map Prod.fst

/-- Expansion loop of DBSCAN: pop seed indices, claim unlabeled points (and
noise points) for cluster cid, and enqueue the neighborhoods of newly claimed
core points.  The fuel argument bounds the loop; it is chosen large enough
that the queue is always exhausted. -/
def expandCluster {γ : Type} (near : γ → γ → Bool) (minPts : Nat)
    (pts : List γ) (cid : Int) :
    Nat → List Nat → List (Option Int) → List (Option Int)
  | 0, _, labels => labels
  | _ + 1, [], labels => labels
  | fuel + 1, q :: seeds, labels =>
    match labels.getD q none with
    | some l =>
      if l = -1 then
        expandCluster near minPts pts cid fuel seeds (labels.set q (some cid))
      else expandCluster near minPts pts cid fuel seeds labels
    | none =>
      let labels' := labels.set q (some cid)
      match pts[q]? with
      | none => expandCluster near minPts pts cid fuel seeds labels'
      | some pq =>
        let nq := neighborIdxs near pts pq
        if minPts ≤ nq.length then
          expandCluster near minPts pts cid fuel (seeds ++ nq) labels'
        else expandCluster near minPts pts cid fuel seeds labels'

/-- Outer scan of DBSCAN: visit the points in array order; an unlabeled
non-core point becomes noise (-1), an unlabeled core point opens the next
cluster id and is expanded. -/
def dbscanOuter {γ : Type} (near : γ → γ → Bool) (minPts : Nat)
    (pts : List γ) : List Nat → Int → List (Option Int) → List (Option Int)
  | [], _, labels => labels
  | i :: rest, nextId, labels =>
    match labels.getD i none with
    | some _ => dbscanOuter near minPts pts rest nextId labels
    | none =>
      match pts[i]? with
      | none => dbscanOuter near minPts pts rest nextId labels
      | some p =>
        let ni := neighborIdxs near pts p
        if ni.length < minPts then
          dbscanOuter near minPts pts rest nextId (labels.set i (some (-1)))
        else
          let labels' := expandCluster near minPts pts nextId
            ((pts.length + 1) * (pts.length + 1))
            (ni.filter (fun j => j != i)) (labels.set i (some nextId))
          dbscanOuter near minPts pts rest (nextId + 1) labels'

/-- Modelled from the spec: sklearn.cluster.DBSCAN(...).fit_predict, which is
not part of this repository (cluster_stops_dbscan only calls it).  Core
points, eps-reachability and the noise label -1 follow section 4.2 of the
spec; a core point is one whose eps-neighborhood (itself included) has at
least min_samples members.  Cluster ids are assigned consecutively from 0 in
the order the clusters are discovered along the input array, which is how the
library numbers clusters (the spec fixes the label data model in section 3
but leaves the numbering to the implementation). -/
def dbscanFit {γ : Type} (near : γ → γ → Bool) (minPts : Nat)
    (pts : List γ) : List Int :=
  (dbscanOuter near minPts pts (List.range pts.length) 0
    (List.replicate pts.length none)).map (fun o => o.getD (-1))

/-- Haversine great-circle central angle between two (latitude, longitude)
points in radians, the metric="haversine" distance sklearn evaluates. -/
noncomputable def haversineDist (p q : ℝ × ℝ) : ℝ :=
  2 * Real.arcsin (Real.sqrt
    (Real.sin ((q.1 - p.1) / 2) ^ 2 +
      Real.cos p.1 * Real.cos q.1 * Real.sin ((q.2 - p.2) / 2) ^ 2))

open Classical in
/-- Eps-neighborhood test of the fitted ball tree under the haversine metric. -/
noncomputable def haversineNear (eps : ℝ) (p q : ℝ × ℝ) : Bool :=
  decide (haversineDist p q ≤ eps)

/-- Degree-to-radian conversion np.radians applied at line 183. -/
noncomputable def toRadians (x : ℚ) : ℝ := (x : ℝ) * Real.pi / 180

/-- Row-wise radian coordinate extraction of line 183:
np.radians(stops_df[["stop_latitude", "stop_longitude"]].values). -/
noncomputable def stopCoordRadians (s : Stop) : ℝ × ℝ :=
  (toRadians s.lat, toRadians s.lon)

/-- The DBSCAN call as configured at lines 184-190 (haversine metric, given
eps in radians), wrapped as the fit-predict oracle of cluster_stops_dbscan;
Except.ok because the library call returns normally on these inputs. -/
noncomputable def dbscanFitHaversine (eps : ℝ) (minPts : Nat)
    (cs : List (ℝ × ℝ)) : Except String (List Int) :=
  .ok (dbscanFit (haversineNear eps) minPts cs)

/-- Stop table obtained when the per-vessel tasks of
get_significant_stops_parallel complete in the order given by groups: the
collection loop appends each task's frame as it arrives (imap_unordered), so
the concatenated table follows the completion order. -/
def stopsWithOrder (groups : List (List Ping)) (minDur maxGap : Int) :
    List Stop :=
  collectStops (groups.map (fun gp =>
    process_single_mmsi_stops ((gp.head?.map Ping.mmsi).getD 0) gp minDur maxGap))

/-- Labeled stop table of a full run in which the per-vessel tasks complete in
the order given by groups, followed by the single DBSCAN pass of main.py. -/
noncomputable def runLabeledWithOrder (groups : List (List Ping))
    (minDur maxGap : Int) (eps : ℝ) (minSamples : Nat) : List LabeledStop :=
  cluster_stops_dbscan (dbscanFitHaversine eps minSamples) stopCoordRadians
    minSamples (stopsWithOrder groups minDur maxGap)

/-- Segment-id column written with an explicit starting id, used to relate the
cumsum formulation to the chopped segments. -/
def idsFromAux {π : Type} (k : Nat) : List (List π) → List Nat
  | [] => []
  | s :: ss => List.replicate s.length k ++ idsFromAux (k + 1) ss

/-- Collinearity of a whole point set: every triple has zero cross product. -/
def allCollinear (pts : List Pt) : Prop :=
  ∀ a ∈ pts, ∀ b ∈ pts, ∀ c ∈ pts, cross a b c = 0

/-- Example stop row used by concrete witnesses. -/
def sampleStop : Stop :=
  { mmsi := 1, lat := 10, lon := 20, startT := 0, endT := 7200, durH := 2
    nPings := 3, shipType := "Cargo", navStatus := "Moored" }

/-- Second example stop row (distinct vessel and position). -/
def sampleStop2 : Stop :=
  { mmsi := 2, lat := 57, lon := 11, startT := 0, endT := 3600, durH := 1
    nPings := 2, shipType := "Tanker", navStatus := "Moored" }

/-- Example ping used by concrete witnesses. -/
def mkPing (m : Nat) (t : Int) (la lo : ℚ) : Ping :=
  { mmsi := m, ts := t, lat := la, lon := lo, sog := 0
    shipType := some "Cargo", navStatus := some "Moored" }

/-- Vessel 1 of the two-vessel scheduling dataset: one ping at the origin. -/
def pingA : Ping := mkPing 1 0 0 0

/-- Vessel 2 of the two-vessel scheduling dataset: one ping at longitude 90
degrees on the equator (a quarter of the great circle away from pingA). -/
def pingB : Ping := mkPing 2 0 0 90

/-- Stop event produced from pingA alone (zero duration, one ping). -/
def stopA : Stop :=
  { mmsi := 1, lat := 0, lon := 0, startT := 0, endT := 0, durH := 0
    nPings := 1, shipType := "Cargo", navStatus := "Moored" }

/-- Stop event produced from pingB alone. -/
def stopB : Stop :=
  { mmsi := 2, lat := 0, lon := 90, startT := 0, endT := 0, durH := 0
    nPings := 1, shipType := "Cargo", navStatus := "Moored" }

/-- Example raw row, fully populated, slow (helper for concrete raw chunks). -/
def rawGood (m : Nat) (tsStr : String) (v : ℚ) : RawPing :=
  { timestampStr := some tsStr, mmsi := some m, lat := some 1, lon := some 2
    navStatus := some "Moored", sog := some v, shipType := some "Cargo" }

/-- Example raw chunk holding a duplicate pair, a row with a missing field and
a row faster than 2 knots, besides one good row. -/
def exRawChunk : List RawPing :=
  [rawGood 1 "14/02/2025 00:00:00" 0,
   rawGood 1 "14/02/2025 00:00:00" 0,
   { timestampStr := none, mmsi := some 2, lat := some 1, lon := some 2
     navStatus := some "Moored", sog := some 0, shipType := some "Cargo" },
   rawGood 3 "14/02/2025 00:01:00" 9]
/-- Claim C2: for every non-empty stop table with fewer rows than min_samples,
cluster_stops_dbscan labels every row -1 and never invokes the clustering
algorithm (the result is the same for every fit-predict oracle). -/
theorem c2_small_input_all_noise {γ : Type}
    (fitPredict : List γ → Except String (List Int)) (coordOf : Stop → γ)
    (minSamples : Nat) (stops : List Stop)
    (hne : stops ≠ []) (hlt : stops.length < minSamples) :
    cluster_stops_dbscan fitPredict coordOf minSamples stops
      = stops.map (fun s => (s, (-1 : Int)))
    ∧ ∀ fit2 : List γ → Except String (List Int),
        cluster_stops_dbscan fit2 coordOf minSamples stops
          = cluster_stops_dbscan fitPredict coordOf minSamples stops := by
  have hemp : stops.isEmpty = false := by
    cases stops with
    | nil => exact absurd rfl hne
    | cons a l => rfl
  constructor
  · unfold cluster_stops_dbscan
    rw [hemp]
    simp [hlt]
  · intro fit2
    unfold cluster_stops_dbscan
    rw [hemp]
    simp [hlt]

/-- Witness for C2 at a concrete one-row table with min_samples = 7. -/
theorem c2_witness :
    cluster_stops_dbscan (fun _ : List Unit => Except.ok []) (fun _ => ()) 7
        [sampleStop] = [(sampleStop, (-1 : Int))]
    ∧ ∀ fit2 : List Unit → Except String (List Int),
        cluster_stops_dbscan fit2 (fun _ => ()) 7 [sampleStop]
          = cluster_stops_dbscan (fun _ : List Unit => Except.ok []) (fun _ => ()) 7
              [sampleStop] := by
  have h := c2_small_input_all_noise (fun _ : List Unit => Except.ok [])
    (fun _ => ()) 7 [sampleStop] (by simp) (by simp)
  exact ⟨by rw [h.1]; rfl, h.2⟩

/-- Claim C5: if the clustering algorithm raises, cluster_stops_dbscan labels
the whole batch with the sentinel -2 and returns normally; -2 differs from
the noise label -1 and from every genuine (non-negative) cluster id. -/
theorem c5_fit_error_sentinel {γ : Type}
    (fitPredict : List γ → Except String (List Int)) (coordOf : Stop → γ)
    (minSamples : Nat) (stops : List Stop) (e : String)
    (hne : stops ≠ []) (hge : minSamples ≤ stops.length)
    (herr : fitPredict (stops.map coordOf) = .error e) :
    cluster_stops_dbscan fitPredict coordOf minSamples stops
      = stops.map (fun s => (s, (-2 : Int)))
    ∧ (-2 : Int) ≠ -1 ∧ ∀ c : Int, 0 ≤ c → (-2 : Int) ≠ c := by
  have hemp : stops.isEmpty = false := by
    cases stops with
    | nil => exact absurd rfl hne
    | cons a l => rfl
  refine ⟨?_, by decide, ?_⟩
  · unfold cluster_stops_dbscan
    rw [hemp, if_neg (by simp), if_neg (Nat.not_lt.mpr hge), herr]
  · intro c hc h
    rw [← h] at hc
    exact absurd hc (by decide)

/-- Witness for C5 at a concrete one-row table with a raising fit oracle. -/
theorem c5_witness :
    cluster_stops_dbscan (fun _ : List Unit => Except.error "fit failed")
        (fun _ => ()) 1 [sampleStop] = [(sampleStop, (-2 : Int))]
    ∧ (-2 : Int) ≠ -1 ∧ ∀ c : Int, 0 ≤ c → (-2 : Int) ≠ c := by
  have h := c5_fit_error_sentinel (fun _ : List Unit => Except.error "fit failed")
    (fun _ => ()) 1 [sampleStop] "fit failed" (by simp) (by simp) rfl
  exact ⟨by rw [h.1]; rfl, h.2.1, h.2.2⟩
/-- Claim C6: when any required input column is absent,
get_significant_stops_parallel fails the whole stage before the per-vessel
fan-out begins (the result does not depend on the worker), its error output
names exactly the required columns that are missing, and the surrounding
pipeline produces no downstream output. -/
theorem c6_missing_columns_abort (df : PingTable) (minDur maxGap : Int)
    (hmiss : ∃ c ∈ required_columns, c ∉ df.columns) :
    (∀ worker, get_significant_stops_parallel worker df minDur maxGap =
      { missing := required_columns.filter (fun c => !(df.columns.contains c))
        stops := [] })
    ∧ required_columns.filter (fun c => !(df.columns.contains c)) ≠ []
    ∧ (∀ c, c ∈ required_columns.filter (fun c => !(df.columns.contains c)) ↔
        (c ∈ required_columns ∧ c ∉ df.columns))
    ∧ (∀ (γ : Type) (worker : Nat → List Ping → Int → Int → List Stop)
        (fit : List γ → Except String (List Int)) (coordOf : Stop → γ)
        (minSamples : Nat),
        mainPipeline worker fit coordOf df minDur maxGap minSamples = none) := by
  obtain ⟨c₀, hc₀, hnc₀⟩ := hmiss
  have hcheck : required_columns.all (fun c => df.columns.contains c) = false := by
    rw [List.all_eq_false]
    exact ⟨c₀, hc₀, by simpa using hnc₀⟩
  have hfail : ∀ worker, get_significant_stops_parallel worker df minDur maxGap =
      { missing := required_columns.filter (fun c => !(df.columns.contains c))
        stops := [] } := by
    intro worker
    unfold get_significant_stops_parallel
    rw [hcheck]
    simp
  refine ⟨hfail, ?_, ?_, ?_⟩
  · apply List.ne_nil_of_mem (a := c₀)
    rw [List.mem_filter]
    exact ⟨hc₀, by simpa using hnc₀⟩
  · intro c
    rw [List.mem_filter]
    simp
  · intro γ worker fit coordOf minSamples
    unfold mainPipeline
    rw [hfail worker]
    rfl

/-- Witness for C6: a table missing the Timestamp and Ship type columns. -/
theorem c6_witness :
    (∀ worker, get_significant_stops_parallel worker
        { columns := ["MMSI", "Latitude", "Longitude", "Navigational status"]
          rows := [pingA] } 3600 900 =
      { missing := required_columns.filter (fun c =>
          !((["MMSI", "Latitude", "Longitude", "Navigational status"] : List String).contains c))
        stops := [] })
    ∧ required_columns.filter (fun c =>
        !((["MMSI", "Latitude", "Longitude", "Navigational status"] : List String).contains c)) ≠ []
    ∧ (∀ c, c ∈ required_columns.filter (fun c =>
        !((["MMSI", "Latitude", "Longitude", "Navigational status"] : List String).contains c)) ↔
        (c ∈ required_columns ∧
          c ∉ (["MMSI", "Latitude", "Longitude", "Navigational status"] : List String)))
    ∧ (∀ (γ : Type) (worker : Nat → List Ping → Int → Int → List Stop)
        (fit : List γ → Except String (List Int)) (coordOf : Stop → γ)
        (minSamples : Nat),
        mainPipeline worker fit coordOf
          { columns := ["MMSI", "Latitude", "Longitude", "Navigational status"]
            rows := [pingA] } 3600 900 minSamples = none) :=
  c6_missing_columns_abort
    { columns := ["MMSI", "Latitude", "Longitude", "Navigational status"]
      rows := [pingA] } 3600 900
    ⟨"Timestamp", by decide, by decide⟩
lemma mem_dedupKeysAux {α : Type} [DecidableEq α] :
    ∀ (l seen : List α) (x : α), x ∈ dedupKeysAux seen l ↔ (x ∈ l ∧ x ∉ seen)
  | [], seen, x => by simp [dedupKeysAux]
  | y :: ys, seen, x => by
    rw [dedupKeysAux]
    by_cases hy : y ∈ seen
    · rw [if_pos hy, mem_dedupKeysAux ys seen x]
      constructor
      · rintro ⟨h1, h2⟩
        exact ⟨List.mem_cons_of_mem y h1, h2⟩
      · rintro ⟨h1, h2⟩
        rcases List.mem_cons.mp h1 with h | h
        · exact absurd hy (by rw [← h] at hy ⊢; exact fun _ => h2 hy)
        · exact ⟨h, h2⟩
    · rw [if_neg hy]
      rw [List.mem_cons, mem_dedupKeysAux ys (y :: seen) x]
      constructor
      · rintro (h | ⟨h1, h2⟩)
        · exact ⟨List.mem_cons.mpr (Or.inl h), by rw [h]; exact hy⟩
        · exact ⟨List.mem_cons_of_mem y h1, fun hx => h2 (List.mem_cons_of_mem y hx)⟩
      · rintro ⟨h1, h2⟩
        by_cases hxy : x = y
        · exact Or.inl hxy
        · rcases List.mem_cons.mp h1 with h | h
          · exact absurd h hxy
          · refine Or.inr ⟨h, fun hx => ?_⟩
            rcases List.mem_cons.mp hx with h' | h'
            · exact hxy h'
            · exact h2 h'

lemma mem_dedupKeys {α : Type} [DecidableEq α] (l : List α) (x : α) :
    x ∈ dedupKeys l ↔ x ∈ l := by
  rw [dedupKeys, mem_dedupKeysAux]
  simp

lemma mem_clusterKeys (actual : List LabeledStop) (c : Int) :
    c ∈ clusterKeys actual ↔ c ∈ actual.map Prod.snd := by
  unfold clusterKeys
  rw [(List.perm_insertionSort _ _).mem_iff, mem_dedupKeys]

lemma calc_polygon_cluster_id (cid : Int) (coords : List (Option ℚ × Option ℚ)) :
    (_calculate_single_cluster_polygon cid coords).cluster_id = cid := by
  simp only [_calculate_single_cluster_polygon]
  split <;> rfl

lemma filter_ne_neg_one_idem (labeled : List LabeledStop) :
    (labeled.filter (fun r => r.2 != -1)).filter (fun r => r.2 != -1)
      = labeled.filter (fun r => r.2 != -1) := by
  rw [List.filter_filter]
  simp

/-- Claim C1 counterexample: a batch whose single row carries the failure
sentinel -2 (the whole-batch label written by cluster_stops_dbscan when the
algorithm raises) contributes to both outputs, each of which then contains a
row for cluster id -2 - the code only filters out the label -1. -/
theorem c1_counterexample :
    (create_cluster_summary_df [(sampleStop, -2)]).map SummaryRow.cluster_id = [-2]
    ∧ (generate_port_polygons_parallel [(sampleStop, -2)]).map PolyRow.cluster_id = [-2] := by
  constructor <;> decide

/-- Claim C1 amended: rows labeled -1 never contribute to a ClusterSummary or
ClusterPolygon row (removing them changes neither output, and no output row
has cluster id -1); rows labeled -2, however, are not excluded and produce a
row for cluster id -2 when present. -/
theorem c1_amended (labeled : List LabeledStop) :
    create_cluster_summary_df (labeled.filter (fun r => r.2 != -1))
      = create_cluster_summary_df labeled
    ∧ generate_port_polygons_parallel (labeled.filter (fun r => r.2 != -1))
      = generate_port_polygons_parallel labeled
    ∧ (∀ s ∈ create_cluster_summary_df labeled, s.cluster_id ≠ -1)
    ∧ (∀ p ∈ generate_port_polygons_parallel labeled, p.cluster_id ≠ -1) := by
  have hkey : ∀ c, c ∈ clusterKeys (labeled.filter (fun r => r.2 != -1)) → c ≠ (-1 : Int) := by
    intro c hc
    rw [mem_clusterKeys, List.mem_map] at hc
    obtain ⟨r, hr, hrc⟩ := hc
    rw [List.mem_filter] at hr
    intro hceq
    rw [hceq] at hrc
    rw [hrc] at hr
    simp at hr
  refine ⟨?_, ?_, ?_, ?_⟩
  · unfold create_cluster_summary_df
    rw [filter_ne_neg_one_idem]
  · unfold generate_port_polygons_parallel
    rw [filter_ne_neg_one_idem]
  · intro s hs
    unfold create_cluster_summary_df at hs
    by_cases hemp : (labeled.filter (fun r => r.2 != -1)).isEmpty
    · rw [if_pos hemp] at hs
      exact absurd hs (List.not_mem_nil s)
    · rw [if_neg hemp, List.mem_map] at hs
      obtain ⟨c, hc, hsc⟩ := hs
      rw [← hsc]
      exact hkey c hc
  · intro p hp
    unfold generate_port_polygons_parallel at hp
    by_cases hemp : (labeled.filter (fun r => r.2 != -1)).isEmpty
    · rw [if_pos hemp] at hp
      exact absurd hp (List.not_mem_nil p)
    · rw [if_neg hemp, List.mem_map] at hp
      obtain ⟨c, hc, hpc⟩ := hp
      rw [← hpc]
      simp only [calc_polygon_cluster_id]
      exact hkey c hc
/-- Claim C4: segment duration equals max(Timestamp) - min(Timestamp), zero
for a single-ping segment, and a segment yields a StopEvent iff
duration >= min_stop_duration, with the boundary inclusive; moreover
process_single_mmsi_stops is exactly this per-segment filter applied to the
chopped segments of the sorted ping list. -/
theorem c4_duration_and_threshold (mmsi : Nat) (minDur : Int) (seg : List Ping)
    (hne : seg ≠ []) :
    segDuration seg = tsMax seg - tsMin seg
    ∧ ((processSegment mmsi minDur seg).isSome ↔ minDur ≤ segDuration seg)
    ∧ ∀ (pings : List Ping) (maxGap : Int), pings ≠ [] →
        process_single_mmsi_stops mmsi pings minDur maxGap =
          (segmentsBy Ping.ts maxGap
              (pings.insertionSort (fun a b => a.ts ≤ b.ts))).filterMap
            (processSegment mmsi minDur) := by
  refine ⟨?_, ?_, ?_⟩
  · cases seg with
    | nil => exact absurd rfl hne
    | cons x xs =>
      cases xs with
      | nil =>
        have h1 : segDuration [x] = 0 := by simp [segDuration]
        have h2 : tsMax [x] - tsMin [x] = 0 := by simp [tsMax, tsMin]
        rw [h1, h2]
      | cons y ys =>
        rw [segDuration, if_neg (by simp)]

  · cases seg with
    | nil => exact absurd rfl hne
    | cons x xs =>
      rw [processSegment]
      by_cases hd : minDur ≤ segDuration (x :: xs)
      · rw [if_pos hd]
        simpa using hd
      · rw [if_neg hd]
        simpa using hd
  · intro pings maxGap hp
    cases pings with
    | nil => exact absurd rfl hp
    | cons p ps => rfl

/-- Witness for C4 at a concrete two-ping segment whose duration exactly
equals the threshold (the boundary case is kept). -/
theorem c4_witness :
    segDuration [mkPing 1 0 0 0, mkPing 1 3600 0 0]
        = tsMax [mkPing 1 0 0 0, mkPing 1 3600 0 0]
          - tsMin [mkPing 1 0 0 0, mkPing 1 3600 0 0]
    ∧ ((processSegment 1 3600 [mkPing 1 0 0 0, mkPing 1 3600 0 0]).isSome ↔
        3600 ≤ segDuration [mkPing 1 0 0 0, mkPing 1 3600 0 0])
    ∧ ∀ (pings : List Ping) (maxGap : Int), pings ≠ [] →
        process_single_mmsi_stops 1 pings 3600 maxGap =
          (segmentsBy Ping.ts maxGap
              (pings.insertionSort (fun a b => a.ts ≤ b.ts))).filterMap
            (processSegment 1 3600) :=
  c4_duration_and_threshold 1 3600 [mkPing 1 0 0 0, mkPing 1 3600 0 0] (by simp)
lemma segmentsBy_shape {π : Type} (t : π → Int) (g : Int) :
    ∀ (xs : List π) (x : π), ∃ s ss, segmentsBy t g (x :: xs) = (x :: s) :: ss
  | [], _ => ⟨[], [], rfl⟩
  | y :: ys, x => by
    obtain ⟨s, ss, h⟩ := segmentsBy_shape t g ys y
    by_cases hg : t y - t x > g
    · refine ⟨[], (y :: s) :: ss, ?_⟩
      simp only [segmentsBy, h]
      rw [if_pos hg]
    · refine ⟨y :: s, ss, ?_⟩
      simp only [segmentsBy, h]
      rw [if_neg hg]

lemma segmentsBy_flatten {π : Type} (t : π → Int) (g : Int) :
    ∀ l : List π, (segmentsBy t g l).flatten = l
  | [] => rfl
  | [_] => rfl
  | x :: y :: xs => by
    have ih := segmentsBy_flatten t g (y :: xs)
    obtain ⟨s, ss, h⟩ := segmentsBy_shape t g xs y
    rw [h] at ih
    simp only [segmentsBy, h]
    by_cases hg : t y - t x > g
    · rw [if_pos hg]
      simp only [List.flatten_cons] at ih ⊢
      rw [List.singleton_append, ih]
    · rw [if_neg hg]
      simp only [List.flatten_cons] at ih ⊢
      rw [List.cons_append, ih]

lemma segmentsBy_ne_nil {π : Type} (t : π → Int) (g : Int) :
    ∀ l : List π, ∀ s ∈ segmentsBy t g l, s ≠ []
  | [] => by simp [segmentsBy]
  | [x] => by
    intro s hs
    simp only [segmentsBy, List.mem_singleton] at hs
    rw [hs]
    simp
  | x :: y :: xs => by
    intro s hs
    have ih := segmentsBy_ne_nil t g (y :: xs)
    obtain ⟨s', ss, h⟩ := segmentsBy_shape t g xs y
    simp only [segmentsBy, h] at hs
    by_cases hg : t y - t x > g
    · rw [if_pos hg] at hs
      rcases List.mem_cons.mp hs with rfl | hs'
      · simp
      · exact ih s (by rw [h]; exact hs')
    · rw [if_neg hg] at hs
      rcases List.mem_cons.mp hs with rfl | hs'
      · simp
      · exact ih s (by rw [h]; exact List.mem_cons_of_mem _ hs')

lemma segmentsBy_chain_within {π : Type} (t : π → Int) (g : Int) :
    ∀ l : List π, ∀ s ∈ segmentsBy t g l,
      List.Chain' (fun a b => t b - t a ≤ g) s
  | [] => by simp [segmentsBy]
  | [x] => by
    intro s hs
    simp only [segmentsBy, List.mem_singleton] at hs
    rw [hs]
    exact List.chain'_singleton x
  | x :: y :: xs => by
    intro s hs
    have ih := segmentsBy_chain_within t g (y :: xs)
    obtain ⟨s', ss, h⟩ := segmentsBy_shape t g xs y
    simp only [segmentsBy, h] at hs
    by_cases hg : t y - t x > g
    · rw [if_pos hg] at hs
      rcases List.mem_cons.mp hs with rfl | hs'
      · exact List.chain'_singleton x
      · exact ih s (by rw [h]; exact hs')
    · rw [if_neg hg] at hs
      rcases List.mem_cons.mp hs with rfl | hs'
      · refine List.chain'_cons.mpr ⟨by omega, ?_⟩
        exact ih (y :: s') (by rw [h]; exact List.mem_cons_self _ _)
      · exact ih s (by rw [h]; exact List.mem_cons_of_mem _ hs')

lemma segmentsBy_chain_boundary {π : Type} (t : π → Int) (g : Int) :
    ∀ l : List π,
      List.Chain' (fun s1 s2 => ∀ a ∈ s1.getLast?, ∀ b ∈ s2.head?, t b - t a > g)
        (segmentsBy t g l)
  | [] => by simp [segmentsBy]
  | [x] => by simp [segmentsBy]
  | x :: y :: xs => by
    have ih := segmentsBy_chain_boundary t g (y :: xs)
    obtain ⟨s', ss, h⟩ := segmentsBy_shape t g xs y
    rw [h] at ih
    simp only [segmentsBy, h]
    by_cases hg : t y - t x > g
    · rw [if_pos hg]
      refine List.chain'_cons.mpr ⟨?_, ih⟩
      intro a ha b hb
      simp only [List.getLast?_singleton, Option.mem_some_iff] at ha
      simp only [List.head?_cons, Option.mem_some_iff] at hb
      rw [← ha, ← hb]
      exact hg
    · rw [if_neg hg]
      cases ss with
      | nil => exact List.chain'_singleton _
      | cons s2 ss2 =>
        rw [List.chain'_cons] at ih ⊢
        refine ⟨?_, ih.2⟩
        intro a ha b hb
        rw [List.getLast?_cons_cons] at ha
        exact ih.1 a ha b hb

lemma idsFromAux_succ {π : Type} :
    ∀ (segs : List (List π)) (k : Nat),
      idsFromAux (k + 1) segs = (idsFromAux k segs).map (· + 1)
  | [], _ => rfl
  | s :: ss, k => by
    simp only [idsFromAux, List.map_append, List.map_replicate]
    rw [idsFromAux_succ ss (k + 1)]

lemma idsOfSegments_eq_idsFromAux_aux {π : Type} :
    ∀ (segs : List (List π)) (k : Nat),
      ((segs.enumFrom k).map (fun p => List.replicate p.2.length (p.1 + 1))).flatten
        = idsFromAux (k + 1) segs
  | [], _ => rfl
  | s :: ss, k => by
    simp only [List.enumFrom_cons, List.map_cons, List.flatten_cons, idsFromAux]
    rw [idsOfSegments_eq_idsFromAux_aux ss (k + 1)]

lemma idsOfSegments_eq_idsFromAux {π : Type} (segs : List (List π)) :
    idsOfSegments segs = idsFromAux 1 segs := by
  rw [idsOfSegments, List.enum]
  exact idsOfSegments_eq_idsFromAux_aux segs 0

lemma segmentIdsAux_shift {π : Type} (t : π → Int) (g : Int) :
    ∀ (l : List π) (prev : Int) (c : Nat),
      segmentIdsAux t g prev (c + 1) l = (segmentIdsAux t g prev c l).map (· + 1)
  | [], _, _ => rfl
  | x :: xs, prev, c => by
    simp only [segmentIdsAux]
    by_cases hg : t x - prev > g
    · rw [if_pos hg, if_pos hg, List.map_cons, segmentIdsAux_shift t g xs (t x) (c + 1)]
    · rw [if_neg hg, if_neg hg, List.map_cons, segmentIdsAux_shift t g xs (t x) c]

lemma segmentIds_eq_idsFromAux {π : Type} (t : π → Int) (g : Int) :
    ∀ l : List π, segmentIds t g l = idsFromAux 1 (segmentsBy t g l)
  | [] => rfl
  | [x] => rfl
  | x :: y :: xs => by
    have ih := segmentIds_eq_idsFromAux t g (y :: xs)
    obtain ⟨s, ss, h⟩ := segmentsBy_shape t g xs y
    rw [h] at ih
    simp only [segmentsBy, h]
    by_cases hg : t y - t x > g
    · rw [if_pos hg]
      have hL : segmentIds t g (x :: y :: xs)
          = 1 :: ((segmentIds t g (y :: xs)).map (· + 1)) := by
        simp only [segmentIds, segmentIdsAux, List.map_cons]
        rw [if_pos hg]
        congr 1
        congr 1
        exact segmentIdsAux_shift t g xs (t y) 1
      rw [hL, ih]
      simp only [idsFromAux, List.replicate_one, List.singleton_append]
      congr 1
      exact (idsFromAux_succ ((y :: s) :: ss) 1).symm
    · rw [if_neg hg]
      have hL : segmentIds t g (x :: y :: xs) = 1 :: segmentIds t g (y :: xs) := by
        simp only [segmentIds, segmentIdsAux]
        rw [if_neg hg]
      rw [hL, ih]
      simp only [idsFromAux, List.length_cons, List.replicate_succ, List.cons_append]

/-- Claim C3: for a vessel's ping sequence sorted ascending by timestamp, the
segments form a complete, disjoint, time-contiguous partition (their
concatenation in order is the whole sequence and none is empty); consecutive
pings inside one segment are at most the gap threshold apart, while across a
segment boundary the delta strictly exceeds it (so a new segment starts
exactly at the first ping and at the pings whose delta exceeds the threshold,
a delta equal to the threshold never splitting); and the cumsum segment-id
column of the source equals the id column read off the chopped segments. -/
theorem c3_segmentation_partition {π : Type} (t : π → Int) (g : Int)
    (l : List π) (hsorted : List.Chain' (fun a b => t a ≤ t b) l) :
    (segmentsBy t g l).flatten = l
    ∧ (∀ s ∈ segmentsBy t g l, s ≠ [])
    ∧ (∀ s ∈ segmentsBy t g l, List.Chain' (fun a b => t b - t a ≤ g) s)
    ∧ List.Chain' (fun s1 s2 => ∀ a ∈ s1.getLast?, ∀ b ∈ s2.head?, t b - t a > g)
        (segmentsBy t g l)
    ∧ segmentIds t g l = idsOfSegments (segmentsBy t g l) := by
  refine ⟨segmentsBy_flatten t g l, segmentsBy_ne_nil t g l,
    segmentsBy_chain_within t g l, segmentsBy_chain_boundary t g l, ?_⟩
  rw [idsOfSegments_eq_idsFromAux]
  exact segmentIds_eq_idsFromAux t g l

/-- Witness for C3 at a concrete sorted four-ping sequence with gaps equal to,
below, and above the threshold. -/
theorem c3_witness :
    (segmentsBy Ping.ts 900 [mkPing 1 0 0 0, mkPing 1 900 0 0, mkPing 1 1000 0 0,
        mkPing 1 2000 0 0]).flatten
      = [mkPing 1 0 0 0, mkPing 1 900 0 0, mkPing 1 1000 0 0, mkPing 1 2000 0 0]
    ∧ (∀ s ∈ segmentsBy Ping.ts 900 [mkPing 1 0 0 0, mkPing 1 900 0 0,
        mkPing 1 1000 0 0, mkPing 1 2000 0 0], s ≠ [])
    ∧ (∀ s ∈ segmentsBy Ping.ts 900 [mkPing 1 0 0 0, mkPing 1 900 0 0,
        mkPing 1 1000 0 0, mkPing 1 2000 0 0],
        List.Chain' (fun a b => Ping.ts b - Ping.ts a ≤ 900) s)
    ∧ List.Chain' (fun s1 s2 => ∀ a ∈ s1.getLast?, ∀ b ∈ s2.head?,
        Ping.ts b - Ping.ts a > 900)
        (segmentsBy Ping.ts 900 [mkPing 1 0 0 0, mkPing 1 900 0 0,
          mkPing 1 1000 0 0, mkPing 1 2000 0 0])
    ∧ segmentIds Ping.ts 900 [mkPing 1 0 0 0, mkPing 1 900 0 0, mkPing 1 1000 0 0,
          mkPing 1 2000 0 0]
        = idsOfSegments (segmentsBy Ping.ts 900 [mkPing 1 0 0 0, mkPing 1 900 0 0,
            mkPing 1 1000 0 0, mkPing 1 2000 0 0]) :=
  c3_segmentation_partition Ping.ts 900
    [mkPing 1 0 0 0, mkPing 1 900 0 0, mkPing 1 1000 0 0, mkPing 1 2000 0 0]
    (by norm_num [List.chain'_cons, mkPing])
lemma isEmpty_false_of_ne_nil {α : Type} {l : List α} (h : l ≠ []) :
    l.isEmpty = false := by
  cases l with
  | nil => exact absurd rfl h
  | cons a l => rfl

lemma polys_ne_nil_of_summary (labeled : List LabeledStop)
    (h : create_cluster_summary_df labeled ≠ []) :
    generate_port_polygons_parallel labeled ≠ [] := by
  unfold create_cluster_summary_df at h
  unfold generate_port_polygons_parallel
  by_cases hemp : (labeled.filter (fun r => r.2 != -1)).isEmpty
  · rw [if_pos hemp] at h
    exact absurd rfl h
  · rw [if_neg hemp] at h ⊢
    have hkeys : clusterKeys (labeled.filter fun r => r.2 != -1) ≠ [] :=
      fun hk => h (by rw [hk]; rfl)
    intro hmap
    exact hkeys (List.map_eq_nil_iff.mp hmap)

/-- Claim C7: whenever the cluster summary table is non-empty, the pipeline
produces the merged summary-with-polygons output, and every cluster id of the
summary appears in it (left-join semantics: the polygon table is also
non-empty in this case, and no summary row is dropped by the merge). -/
theorem c7_left_merge_keeps_all_clusters {γ : Type}
    (worker : Nat → List Ping → Int → Int → List Stop)
    (fit : List γ → Except String (List Int)) (coordOf : Stop → γ)
    (df : PingTable) (minDur maxGap : Int) (minSamples : Nat)
    (hstops : (get_significant_stops_parallel worker df minDur maxGap).stops ≠ [])
    (hsum : create_cluster_summary_df (cluster_stops_dbscan fit coordOf minSamples
        (get_significant_stops_parallel worker df minDur maxGap).stops) ≠ []) :
    ∃ out, mainPipeline worker fit coordOf df minDur maxGap minSamples = some out
      ∧ ∀ s ∈ create_cluster_summary_df (cluster_stops_dbscan fit coordOf minSamples
            (get_significant_stops_parallel worker df minDur maxGap).stops),
          ∃ r ∈ out.merged, r.srow = s ∧ r.srow.cluster_id = s.cluster_id := by
  have hstopsE := isEmpty_false_of_ne_nil hstops
  have hsumE := isEmpty_false_of_ne_nil hsum
  have hpoly := polys_ne_nil_of_summary _ hsum
  have hpolyE := isEmpty_false_of_ne_nil hpoly
  refine ⟨{ clustered := cluster_stops_dbscan fit coordOf minSamples
              (get_significant_stops_parallel worker df minDur maxGap).stops
            merged := mergeLeftOnClusterId
              (create_cluster_summary_df (cluster_stops_dbscan fit coordOf minSamples
                (get_significant_stops_parallel worker df minDur maxGap).stops))
              (generate_port_polygons_parallel (cluster_stops_dbscan fit coordOf minSamples
                (get_significant_stops_parallel worker df minDur maxGap).stops)) },
    ?_, ?_⟩
  · unfold mainPipeline
    simp only [hstopsE, hsumE, hpolyE, Bool.false_eq_true, if_false]
  · intro s hs
    exact ⟨_, List.mem_map_of_mem _ hs, rfl, rfl⟩

/-- Witness for C7 at a concrete one-vessel table whose single stop forms
cluster 0. -/
theorem c7_witness :
    ∃ out, mainPipeline (fun _ _ _ _ => [sampleStop])
        (fun _ : List Unit => Except.ok [0]) (fun _ => ())
        { columns := required_columns, rows := [pingA] } 3600 900 1 = some out
      ∧ ∀ s ∈ create_cluster_summary_df (cluster_stops_dbscan
            (fun _ : List Unit => Except.ok [0]) (fun _ => ()) 1
            (get_significant_stops_parallel (fun _ _ _ _ => [sampleStop])
              { columns := required_columns, rows := [pingA] } 3600 900).stops),
          ∃ r ∈ out.merged, r.srow = s ∧ r.srow.cluster_id = s.cluster_id :=
  c7_left_merge_keeps_all_clusters (fun _ _ _ _ => [sampleStop])
    (fun _ : List Unit => Except.ok [0]) (fun _ => ())
    { columns := required_columns, rows := [pingA] } 3600 900 1
    (by decide) (by decide)
lemma nodup_dedupKeysAux {α : Type} [DecidableEq α] :
    ∀ (l seen : List α), (dedupKeysAux seen l).Nodup
  | [], _ => List.nodup_nil
  | x :: xs, seen => by
    rw [dedupKeysAux]
    by_cases hx : x ∈ seen
    · rw [if_pos hx]
      exact nodup_dedupKeysAux xs seen
    · rw [if_neg hx]
      refine List.nodup_cons.mpr ⟨?_, nodup_dedupKeysAux xs (x :: seen)⟩
      intro hmem
      exact ((mem_dedupKeysAux xs (x :: seen) x).mp hmem).2 (List.mem_cons_self x seen)

lemma mem_preprocess_sog (parse : String → Int) (raw : List RawPing) :
    ∀ p ∈ preprocess_chunk parse raw, p.sog ≤ 2 := by
  intro p hp
  unfold preprocess_chunk at hp
  have := (List.mem_filter.mp hp).2
  simpa using this

/-- Claim C10: the preprocessing stage keeps exactly the deduplicated, fully
populated raw records whose speed over ground is at most 2 knots (dropna
drops rows with any missing field, drop_duplicates keeps one copy of each
exact duplicate, the SOG filter is applied on top), and every StopEvent that
segmentation later produces is built exclusively out of pings of that
preprocessed table, hence out of deduplicated, fully populated records with
speed over ground at most 2. -/
theorem c10_preprocess_and_provenance (parse : String → Int) (raw : List RawPing) :
    (∀ p ∈ preprocess_chunk parse raw,
       ∃ r ∈ raw, rawComplete r = true ∧ p = parseRow parse r ∧ p.sog ≤ 2)
    ∧ (dedupRaw (raw.filter rawComplete)).Nodup
    ∧ (∀ r, r ∈ dedupRaw (raw.filter rawComplete) ↔ (r ∈ raw ∧ rawComplete r = true))
    ∧ (∀ r ∈ dedupRaw (raw.filter rawComplete),
        ((parseRow parse r).sog ≤ 2 ↔ parseRow parse r ∈ preprocess_chunk parse raw))
    ∧ ∀ (mmsi : Nat) (minDur maxGap : Int) (grp : List Ping),
        (∀ x ∈ grp, x ∈ preprocess_chunk parse raw) →
        ∀ st ∈ process_single_mmsi_stops mmsi grp minDur maxGap,
          ∃ seg, seg ≠ [] ∧ (∀ x ∈ seg, x ∈ preprocess_chunk parse raw ∧ x.sog ≤ 2)
            ∧ processSegment mmsi minDur seg = some st := by
  have hmemdedup : ∀ r, r ∈ dedupRaw (raw.filter rawComplete) ↔
      (r ∈ raw ∧ rawComplete r = true) := by
    intro r
    rw [dedupRaw, dedupKeys, mem_dedupKeysAux, List.mem_filter]
    simp
  refine ⟨?_, nodup_dedupKeysAux _ _, hmemdedup, ?_, ?_⟩
  · intro p hp
    have hsog := mem_preprocess_sog parse raw p hp
    unfold preprocess_chunk at hp
    have hp' := (List.mem_filter.mp hp).1
    obtain ⟨r, hr, hpr⟩ := List.mem_map.mp hp'
    obtain ⟨hr1, hr2⟩ := (hmemdedup r).mp hr
    exact ⟨r, hr1, hr2, hpr.symm, hsog⟩
  · intro r hr
    constructor
    · intro hsog
      unfold preprocess_chunk
      refine List.mem_filter.mpr ⟨List.mem_map_of_mem _ hr, by simpa using hsog⟩
    · intro hmem
      exact mem_preprocess_sog parse raw _ hmem
  · intro mmsi minDur maxGap grp hgrp st hst
    cases grp with
    | nil => exact absurd hst (List.not_mem_nil st)
    | cons q qs =>
      rw [process_single_mmsi_stops] at hst
      obtain ⟨seg, hseg, hsegst⟩ := List.mem_filterMap.mp hst
      refine ⟨seg, ?_, ?_, hsegst⟩
      · intro hnil
        rw [hnil] at hsegst
        exact Option.noConfusion hsegst
      · intro x hx
        have hxflat : x ∈ (segmentsBy Ping.ts maxGap
            ((q :: qs).insertionSort (fun a b => a.ts ≤ b.ts))).flatten :=
          List.mem_flatten.mpr ⟨seg, hseg, hx⟩
        rw [segmentsBy_flatten] at hxflat
        have hxgrp : x ∈ q :: qs :=
          (List.perm_insertionSort (fun a b => a.ts ≤ b.ts) (q :: qs)).mem_iff.mp hxflat
        have hxpre := hgrp x hxgrp
        exact ⟨hxpre, mem_preprocess_sog parse raw x hxpre⟩

/-- Witness for C10 at a concrete raw chunk holding a duplicate row, a row
with a missing field, a fast row (SOG above 2), and one good row. -/
theorem c10_witness :
    (∀ p ∈ preprocess_chunk (fun _ => 0) exRawChunk,
       ∃ r ∈ exRawChunk, rawComplete r = true ∧ p = parseRow (fun _ => 0) r ∧ p.sog ≤ 2)
    ∧ (dedupRaw (exRawChunk.filter rawComplete)).Nodup
    ∧ (∀ r, r ∈ dedupRaw (exRawChunk.filter rawComplete) ↔
        (r ∈ exRawChunk ∧ rawComplete r = true))
    ∧ (∀ r ∈ dedupRaw (exRawChunk.filter rawComplete),
        ((parseRow (fun _ => 0) r).sog ≤ 2 ↔
          parseRow (fun _ => 0) r ∈ preprocess_chunk (fun _ => 0) exRawChunk))
    ∧ ∀ (mmsi : Nat) (minDur maxGap : Int) (grp : List Ping),
        (∀ x ∈ grp, x ∈ preprocess_chunk (fun _ => 0) exRawChunk) →
        ∀ st ∈ process_single_mmsi_stops mmsi grp minDur maxGap,
          ∃ seg, seg ≠ [] ∧
            (∀ x ∈ seg, x ∈ preprocess_chunk (fun _ => 0) exRawChunk ∧ x.sog ≤ 2)
            ∧ processSegment mmsi minDur seg = some st :=
  c10_preprocess_and_provenance (fun _ => 0) exRawChunk
lemma cross_pt_self (a b : Pt) : cross a b b = 0 := by
  unfold cross
  ring

lemma cross_pt_left (a b : Pt) : cross a b a = 0 := by
  unfold cross
  ring

lemma cross_zero_trans (p0 p1 : Pt) (hne : p0 ≠ p1) (a b c : Pt)
    (ha : cross p0 p1 a = 0) (hb : cross p0 p1 b = 0) (hc : cross p0 p1 c = 0) :
    cross a b c = 0 := by
  have hd : p1.1 - p0.1 ≠ 0 ∨ p1.2 - p0.2 ≠ 0 := by
    by_contra hcon
    push_neg at hcon
    refine hne ?_
    have h1 : p0.1 = p1.1 := by linarith [hcon.1]
    have h2 : p0.2 = p1.2 := by linarith [hcon.2]
    exact Prod.ext h1 h2
  unfold cross at ha hb hc ⊢
  rcases hd with hdx | hdy
  · have h : (p1.1 - p0.1) *
        ((b.1 - a.1) * (c.2 - a.2) - (b.2 - a.2) * (c.1 - a.1)) = 0 := by
      linear_combination (c.1 - b.1) * ha + (a.1 - c.1) * hb + (b.1 - a.1) * hc
    rcases mul_eq_zero.mp h with h' | h'
    · exact absurd h' hdx
    · exact h'
  · have h : (p1.2 - p0.2) *
        ((b.1 - a.1) * (c.2 - a.2) - (b.2 - a.2) * (c.1 - a.1)) = 0 := by
      linear_combination (c.2 - b.2) * ha + (a.2 - c.2) * hb + (b.2 - a.2) * hc
    rcases mul_eq_zero.mp h with h' | h'
    · exact absurd h' hdy
    · exact h'

lemma mem_lexSort_dedup (pts : List Pt) (x : Pt) :
    x ∈ lexSort (dedupKeys pts) ↔ x ∈ pts := by
  rw [lexSort, (List.perm_insertionSort _ _).mem_iff, mem_dedupKeys]

lemma nodup_lexSort_dedup (pts : List Pt) : (lexSort (dedupKeys pts)).Nodup := by
  rw [lexSort]
  exact (List.perm_insertionSort _ _).nodup_iff.mpr (nodup_dedupKeysAux pts [])

lemma getLastD_mem_cons {α : Type} : ∀ (l : List α) (a d : α),
    (a :: l).getLastD d ∈ a :: l
  | [], a, d => by simp
  | b :: l, a, d => by
    rw [List.getLastD_cons]
    exact List.mem_cons_of_mem a (getLastD_mem_cons l b a)

lemma allCollinear_of_dedup_singleton (pts : List Pt) (p : Pt)
    (h : ∀ x ∈ pts, x = p) : allCollinear pts := by
  intro a ha b hb c hc
  rw [h a ha, h b hb, h c hc]
  exact cross_pt_self p p

/-- Claim C8: the polygon worker is total and covers every degenerate case:
with zero valid coordinate pairs it returns the row with an absent geometry
(not an error, not a dropped row); with at least one valid pair it returns a
serialized geometry, which is a point when one distinct point remains, a line
with two distinct endpoints when at least two distinct points remain but all
points are collinear, and a polygon when the points are not all collinear. -/
theorem c8_polygon_degenerate_cases (cid : Int)
    (coords : List (Option ℚ × Option ℚ)) :
    (validPoints coords = [] →
      _calculate_single_cluster_polygon cid coords
        = { cluster_id := cid, port_polygon_wkt := none })
    ∧ (validPoints coords ≠ [] →
      _calculate_single_cluster_polygon cid coords
        = { cluster_id := cid
            port_polygon_wkt := some (wktOf (convex_hull (validPoints coords))) }
      ∧ ((dedupKeys (validPoints coords)).length = 1 →
          ∃ p r, convex_hull (validPoints coords) = Geom.point p
            ∧ wktOf (convex_hull (validPoints coords)) = "POINT (" ++ r)
      ∧ (2 ≤ (dedupKeys (validPoints coords)).length →
          allCollinear (validPoints coords) →
          ∃ a b r, convex_hull (validPoints coords) = Geom.linestring a b ∧ a ≠ b
            ∧ wktOf (convex_hull (validPoints coords)) = "LINESTRING (" ++ r)
      ∧ (¬ allCollinear (validPoints coords) →
          ∃ ring r, convex_hull (validPoints coords) = Geom.polygon ring
            ∧ wktOf (convex_hull (validPoints coords)) = "POLYGON ((" ++ r)) := by
  constructor
  · intro h
    simp only [_calculate_single_cluster_polygon, h]
  · intro hne
    have hlen : (lexSort (dedupKeys (validPoints coords))).length
        = (dedupKeys (validPoints coords)).length := by
      rw [lexSort]
      exact (List.perm_insertionSort _ _).length_eq
    refine ⟨?_, ?_, ?_, ?_⟩
    · cases hpts : validPoints coords with
      | nil => exact absurd hpts hne
      | cons p ps => simp only [_calculate_single_cluster_polygon, hpts]
    · intro h1
      rw [← hlen] at h1
      obtain ⟨p, hp⟩ := List.length_eq_one.mp h1
      refine ⟨p, coordStr p ++ ")", ?_, ?_⟩
      · simp only [convex_hull, hp]
      · simp only [convex_hull, hp, wktOf, String.append_assoc]
    · intro h2 hcol
      rw [← hlen] at h2
      cases hd : lexSort (dedupKeys (validPoints coords)) with
      | nil => rw [hd] at h2; simp at h2
      | cons p0 tl =>
        cases tl with
        | nil => rw [hd] at h2; simp at h2
        | cons p1 rest =>
          have hall : rest.all (fun q => cross p0 p1 q == 0) = true := by
            rw [List.all_eq_true]
            intro q hq
            have hq' : q ∈ lexSort (dedupKeys (validPoints coords)) := by
              rw [hd]; exact List.mem_cons_of_mem _ (List.mem_cons_of_mem _ hq)
            have hp0 : p0 ∈ lexSort (dedupKeys (validPoints coords)) := by
              rw [hd]; exact List.mem_cons_self _ _
            have hp1 : p1 ∈ lexSort (dedupKeys (validPoints coords)) := by
              rw [hd]; exact List.mem_cons_of_mem _ (List.mem_cons_self _ _)
            rw [mem_lexSort_dedup] at hq' hp0 hp1
            simpa using hcol p0 hp0 p1 hp1 q hq'
          have hnodup := nodup_lexSort_dedup (validPoints coords)
          rw [hd, List.nodup_cons] at hnodup
          refine ⟨p0, (p1 :: rest).getLastD p1,
            coordStr p0 ++ (", " ++ (coordStr ((p1 :: rest).getLastD p1) ++ ")")),
            ?_, ?_, ?_⟩
          · simp only [convex_hull, hd, hall, if_true]
          · intro heq
            exact hnodup.1 (by rw [heq]; exact getLastD_mem_cons rest p1 p1)
          · simp only [convex_hull, hd, hall, if_true, wktOf]
            simp [String.append_assoc]
    · intro hncol
      have hne2 : 2 ≤ (dedupKeys (validPoints coords)).length := by
        rcases hlc : (dedupKeys (validPoints coords)).length with _ | n
        · exfalso
          obtain ⟨x, hx⟩ := List.exists_mem_of_ne_nil _ hne
          have : x ∈ dedupKeys (validPoints coords) := (mem_dedupKeys _ _).mpr hx
          rw [List.length_eq_zero.mp hlc] at this
          exact List.not_mem_nil x this
        · rcases n with _ | n
          · exfalso
            obtain ⟨p, hp⟩ := List.length_eq_one.mp hlc
            refine hncol (allCollinear_of_dedup_singleton _ p ?_)
            intro x hx
            have : x ∈ dedupKeys (validPoints coords) := (mem_dedupKeys _ _).mpr hx
            rw [hp] at this
            exact List.mem_singleton.mp this
          · omega
      rw [← hlen] at hne2
      cases hd : lexSort (dedupKeys (validPoints coords)) with
      | nil => rw [hd] at hne2; simp at hne2
      | cons p0 tl =>
        cases tl with
        | nil => rw [hd] at hne2; simp at hne2
        | cons p1 rest =>
          have hnodup := nodup_lexSort_dedup (validPoints coords)
          rw [hd, List.nodup_cons] at hnodup
          have hp0p1 : p0 ≠ p1 :=
            fun h => hnodup.1 (by rw [h]; exact List.mem_cons_self _ _)
          have hall : rest.all (fun q => cross p0 p1 q == 0) = false := by
            by_contra hcon
            rw [Bool.not_eq_false, List.all_eq_true] at hcon
            refine hncol ?_
            intro a ha b hb c hc
            have hmem : ∀ x ∈ validPoints coords, cross p0 p1 x = 0 := by
              intro x hx
              have : x ∈ lexSort (dedupKeys (validPoints coords)) :=
                (mem_lexSort_dedup _ _).mpr hx
              rw [hd] at this
              rcases List.mem_cons.mp this with rfl | this
              · exact cross_pt_left x p1
              · rcases List.mem_cons.mp this with rfl | this
                · exact cross_pt_self p0 x
                · simpa using hcon x this
            exact cross_zero_trans p0 p1 hp0p1 a b c
              (hmem a ha) (hmem b hb) (hmem c hc)
          refine ⟨convexHullRing (p0 :: p1 :: rest),
            String.intercalate ", " (((convexHullRing (p0 :: p1 :: rest))
              ++ (convexHullRing (p0 :: p1 :: rest)).take 1).map coordStr) ++ "))",
            ?_, ?_⟩
          · simp only [convex_hull, hd, hall, Bool.false_eq_true, if_false]
          · simp only [convex_hull, hd, hall, Bool.false_eq_true, if_false, wktOf]
            simp [String.append_assoc]

/-- Witness for C8 at a concrete cluster mixing a missing coordinate pair with
three non-collinear valid points. -/
theorem c8_witness :
    (validPoints [(none, some 3), (some 0, some 0), (some 1, some 0), (some 0, some 1)] = [] →
      _calculate_single_cluster_polygon 4
          [(none, some 3), (some 0, some 0), (some 1, some 0), (some 0, some 1)]
        = { cluster_id := 4, port_polygon_wkt := none })
    ∧ (validPoints [(none, some 3), (some 0, some 0), (some 1, some 0), (some 0, some 1)] ≠ [] →
      _calculate_single_cluster_polygon 4
          [(none, some 3), (some 0, some 0), (some 1, some 0), (some 0, some 1)]
        = { cluster_id := 4
            port_polygon_wkt := some (wktOf (convex_hull (validPoints
              [(none, some 3), (some 0, some 0), (some 1, some 0), (some 0, some 1)]))) }
      ∧ ((dedupKeys (validPoints [(none, some 3), (some 0, some 0), (some 1, some 0),
            (some 0, some 1)])).length = 1 →
          ∃ p r, convex_hull (validPoints [(none, some 3), (some 0, some 0), (some 1, some 0),
              (some 0, some 1)]) = Geom.point p
            ∧ wktOf (convex_hull (validPoints [(none, some 3), (some 0, some 0),
                (some 1, some 0), (some 0, some 1)])) = "POINT (" ++ r)
      ∧ (2 ≤ (dedupKeys (validPoints [(none, some 3), (some 0, some 0), (some 1, some 0),
            (some 0, some 1)])).length →
          allCollinear (validPoints [(none, some 3), (some 0, some 0), (some 1, some 0),
            (some 0, some 1)]) →
          ∃ a b r, convex_hull (validPoints [(none, some 3), (some 0, some 0),
              (some 1, some 0), (some 0, some 1)]) = Geom.linestring a b ∧ a ≠ b
            ∧ wktOf (convex_hull (validPoints [(none, some 3), (some 0, some 0),
                (some 1, some 0), (some 0, some 1)])) = "LINESTRING (" ++ r)
      ∧ (¬ allCollinear (validPoints [(none, some 3), (some 0, some 0), (some 1, some 0),
            (some 0, some 1)]) →
          ∃ ring r, convex_hull (validPoints [(none, some 3), (some 0, some 0),
              (some 1, some 0), (some 0, some 1)]) = Geom.polygon ring
            ∧ wktOf (convex_hull (validPoints [(none, some 3), (some 0, some 0),
                (some 1, some 0), (some 0, some 1)])) = "POLYGON ((" ++ r)) :=
  c8_polygon_degenerate_cases 4
    [(none, some 3), (some 0, some 0), (some 1, some 0), (some 0, some 1)]
lemma expandCluster_nil_seeds {γ : Type} (near : γ → γ → Bool) (minPts : Nat)
    (pts : List γ) (cid : Int) :
    ∀ (fuel : Nat) (labels : List (Option Int)),
      expandCluster near minPts pts cid fuel [] labels = labels
  | 0, _ => rfl
  | _ + 1, _ => rfl

lemma dbscanFit_pair {γ : Type} (near : γ → γ → Bool) (a b : γ)
    (haa : near a a = true) (hab : near a b = false)
    (hba : near b a = false) (hbb : near b b = true) :
    dbscanFit near 1 [a, b] = [0, 1] := by
  simp [dbscanFit, dbscanOuter, neighborIdxs, expandCluster_nil_seeds,
    haa, hab, hba, hbb, List.range_succ, List.enum, List.enumFrom,
    List.getD, List.filter]

lemma haversineDist_self (p : ℝ × ℝ) : haversineDist p p = 0 := by
  unfold haversineDist
  simp

lemma haversineDist_comm (p q : ℝ × ℝ) : haversineDist p q = haversineDist q p := by
  unfold haversineDist
  rw [show (q.1 - p.1) / 2 = -((p.1 - q.1) / 2) by ring, Real.sin_neg,
    show (q.2 - p.2) / 2 = -((p.2 - q.2) / 2) by ring, Real.sin_neg]
  ring_nf

lemma haversineNear_refl (eps : ℝ) (heps : 0 ≤ eps) (p : ℝ × ℝ) :
    haversineNear eps p p = true := by
  unfold haversineNear
  exact decide_eq_true (by rw [haversineDist_self]; exact heps)

lemma haversineDist_quarter :
    haversineDist ((0 : ℝ), (0 : ℝ)) ((0 : ℝ), Real.pi / 2) = Real.pi / 2 := by
  unfold haversineDist
  have e1 : Real.sin (((0 : ℝ) - 0) / 2) = 0 := by norm_num
  have e2 : Real.sin ((Real.pi / 2 - 0) / 2) = Real.sqrt 2 / 2 := by
    rw [show (Real.pi / 2 - 0) / 2 = Real.pi / 4 by ring]
    exact Real.sin_pi_div_four
  simp only [e1, e2, Real.cos_zero]
  have e3 : (Real.sqrt 2 / 2) ^ 2 = 1 / 2 := by
    rw [div_pow, Real.sq_sqrt (by norm_num : (0 : ℝ) ≤ 2)]
    norm_num
  rw [e3]
  have e4 : (0 : ℝ) ^ 2 + 1 * 1 * (1 / 2) = 1 / 2 := by norm_num
  rw [e4]
  have e5 : Real.sqrt (1 / 2) = Real.sqrt 2 / 2 := by
    rw [show (1 : ℝ) / 2 = (Real.sqrt 2 / 2) ^ 2 by rw [e3]]
    exact Real.sqrt_sq (by positivity)
  rw [e5, ← Real.sin_pi_div_four,
    Real.arcsin_sin (by linarith [Real.pi_pos]) (by linarith [Real.pi_pos])]
  ring

lemma not_quarter_le_one : ¬ (Real.pi / 2 ≤ 1) := by
  nlinarith [Real.pi_gt_three]

lemma haversineNear_quarter_false :
    haversineNear 1 ((0 : ℝ), (0 : ℝ)) ((0 : ℝ), Real.pi / 2) = false := by
  unfold haversineNear
  exact decide_eq_false (by rw [haversineDist_quarter]; exact not_quarter_le_one)

lemma haversineNear_quarter_false' :
    haversineNear 1 ((0 : ℝ), Real.pi / 2) ((0 : ℝ), (0 : ℝ)) = false := by
  have h : haversineDist ((0 : ℝ), Real.pi / 2) ((0 : ℝ), (0 : ℝ)) = Real.pi / 2 := by
    rw [haversineDist_comm]
    exact haversineDist_quarter
  unfold haversineNear
  exact decide_eq_false (by rw [h]; exact not_quarter_le_one)

lemma stopCoordRadians_A : stopCoordRadians stopA = ((0 : ℝ), (0 : ℝ)) := by
  simp [stopCoordRadians, toRadians, stopA]

lemma stopCoordRadians_B : stopCoordRadians stopB = ((0 : ℝ), Real.pi / 2) := by
  simp only [stopCoordRadians, toRadians, stopB]
  refine Prod.ext ?_ ?_
  · push_cast
    ring
  · push_cast
    ring

lemma run_pair_eq :
    runLabeledWithOrder [[pingA], [pingB]] 0 900 1 1 = [(stopA, 0), (stopB, 1)]
    ∧ runLabeledWithOrder [[pingB], [pingA]] 0 900 1 1 = [(stopB, 0), (stopA, 1)] := by
  have haa := haversineNear_refl 1 (by norm_num) ((0 : ℝ), (0 : ℝ))
  have hbb := haversineNear_refl 1 (by norm_num) ((0 : ℝ), Real.pi / 2)
  have hab := haversineNear_quarter_false
  have hba := haversineNear_quarter_false'
  constructor
  · unfold runLabeledWithOrder
    rw [show stopsWithOrder [[pingA], [pingB]] 0 900 = [stopA, stopB] from by
      norm_num [stopsWithOrder, collectStops, process_single_mmsi_stops,
        List.insertionSort, segmentsBy, processSegment, segDuration, tsMin, tsMax,
        ratMean, firstValidOrNA, pingA, pingB, stopA, stopB, mkPing,
        List.filter, List.filterMap_cons, List.filterMap_nil,
        List.isEmpty_cons, Stop.mk.injEq]]
    unfold cluster_stops_dbscan
    rw [if_neg (by simp), if_neg (by simp)]
    unfold dbscanFitHaversine
    rw [show [stopA, stopB].map stopCoordRadians
        = [((0 : ℝ), (0 : ℝ)), ((0 : ℝ), Real.pi / 2)] from by
      rw [List.map_cons, List.map_cons, List.map_nil, stopCoordRadians_A,
        stopCoordRadians_B]]
    rw [dbscanFit_pair (haversineNear 1) _ _ haa hab hba hbb]
    rfl
  · unfold runLabeledWithOrder
    rw [show stopsWithOrder [[pingB], [pingA]] 0 900 = [stopB, stopA] from by
      norm_num [stopsWithOrder, collectStops, process_single_mmsi_stops,
        List.insertionSort, segmentsBy, processSegment, segDuration, tsMin, tsMax,
        ratMean, firstValidOrNA, pingA, pingB, stopA, stopB, mkPing,
        List.filter, List.filterMap_cons, List.filterMap_nil,
        List.isEmpty_cons, Stop.mk.injEq]]
    unfold cluster_stops_dbscan
    rw [if_neg (by simp), if_neg (by simp)]
    unfold dbscanFitHaversine
    rw [show [stopB, stopA].map stopCoordRadians
        = [((0 : ℝ), Real.pi / 2), ((0 : ℝ), (0 : ℝ))] from by
      rw [List.map_cons, List.map_cons, List.map_nil, stopCoordRadians_A,
        stopCoordRadians_B]]
    rw [dbscanFit_pair (haversineNear 1) _ _ hbb hba hab haa]
    rfl

/-- Claim C9 counterexample: the same two-vessel dataset, the same thresholds
(min duration 0, max gap 900 s, eps 1 rad, min_samples 1), but the two
per-vessel tasks complete in swapped order.  The collection loop concatenates
the arriving stop frames without re-sorting, DBSCAN numbers the clusters in
discovery order along that concatenation, and the two runs' labeled stop
tables differ even as multisets: vessel A's stop carries cluster id 0 in one
run and cluster id 1 in the other. -/
theorem c9_counterexample :
    ([[pingA], [pingB]] : List (List Ping)).Perm [[pingB], [pingA]]
    ∧ ¬ (runLabeledWithOrder [[pingA], [pingB]] 0 900 1 1).Perm
        (runLabeledWithOrder [[pingB], [pingA]] 0 900 1 1) := by
  obtain ⟨h1, h2⟩ := run_pair_eq
  constructor
  · decide
  · intro hperm
    rw [h1, h2] at hperm
    have hmem := hperm.mem_iff.mp (List.mem_cons_self (stopA, 0) _)
    have hnot : ¬ ((stopA, (0 : Int)) ∈ ([(stopB, 0), (stopA, 1)] : List LabeledStop)) := by
      decide
    exact hnot hmem

/-- Claim C9 amended: the fan-out collection stages themselves are
order-insensitive only up to multiset equality - permuting the per-vessel
result frames permutes the concatenated stop table, and permuting the
per-cluster tasks permutes the polygon rows - but the final labeled outputs
are not invariant: the cluster ids DBSCAN assigns depend on the arrival order
of the stop frames (see the counterexample), so identical reruns are
guaranteed identical only up to a renumbering of cluster ids. -/
theorem c9_amended (r1 r2 : List (List Stop))
    (t1 t2 : List (Int × List (Option ℚ × Option ℚ)))
    (hr : r1.Perm r2) (ht : t1.Perm t2) :
    (collectStops r1).Perm (collectStops r2)
    ∧ (t1.map (fun t => _calculate_single_cluster_polygon t.1 t.2)).Perm
        (t2.map (fun t => _calculate_single_cluster_polygon t.1 t.2)) :=
  ⟨(hr.filter _).flatten, ht.map _⟩

/-- Witness for C9 amended at two concrete swapped per-vessel result lists
and a concrete per-cluster task list. -/
theorem c9_amended_witness :
    (collectStops [[sampleStop], [sampleStop2]]).Perm
        (collectStops [[sampleStop2], [sampleStop]])
    ∧ (([((0 : Int), ([] : List (Option ℚ × Option ℚ)))].map
          (fun t => _calculate_single_cluster_polygon t.1 t.2)).Perm
        ([((0 : Int), ([] : List (Option ℚ × Option ℚ)))].map
          (fun t => _calculate_single_cluster_polygon t.1 t.2))) :=
  c9_amended [[sampleStop], [sampleStop2]] [[sampleStop2], [sampleStop]]
    [((0 : Int), ([] : List (Option ℚ × Option ℚ)))]
    [((0 : Int), ([] : List (Option ℚ × Option ℚ)))]
    (by decide) (by decide)
